import Mathlib

/-!
Shallow embedding of the CortexHub backend document-processing and RAG query
pipeline (backend/src/server.ts, backend/src/routes/workspace.ts,
backend/src/models/Document.ts), together with proofs of the specified
properties.

Source strings are handled as JavaScript handles them: `toLowerCase`,
`trim`, `includes` and the regex match over stdout are modelled by
structural functions on the character list of a `String`, so that all
definitions evaluate inside the kernel.
-/

/-! ## JavaScript string primitives -/

/-- Split a character list at every occurrence of the character `c`. -/
def splitOnChar (c : Char) : List Char → List (List Char)
  | [] => [[]]
  | x :: xs =>
    let r := splitOnChar c xs
    if x = c then [] :: r
    else
      match r with
      | [] => [[x]]
      | y :: ys => (x :: y) :: ys

/-- Remainder of `s` after the first occurrence of `pat`, if `pat` occurs. -/
def restAfter (pat : List Char) : List Char → Option (List Char)
  | [] => if List.isPrefixOf pat [] then some [] else none
  | x :: xs =>
    if List.isPrefixOf pat (x :: xs) then some (List.drop pat.length (x :: xs))
    else restAfter pat xs

/-- Substring test on character lists. -/
def hasSub (pat s : List Char) : Bool := (restAfter pat s).isSome

/-- Drop leading and trailing whitespace, as JavaScript `String.prototype.trim`. -/
def trimChars (cs : List Char) : List Char :=
  ((cs.dropWhile Char.isWhitespace).reverse.dropWhile Char.isWhitespace).reverse

/-- JavaScript `toLowerCase` (ASCII range, which covers every keyword used). -/
def jsToLower (s : String) : String := ⟨s.data.map Char.toLower⟩

/-- JavaScript `trim`. -/
def jsTrim (s : String) : String := ⟨trimChars s.data⟩

/-- JavaScript `includes`. -/
def jsIncludes (s pat : String) : Bool := hasSub pat.data s.data

/-- The lines of a string, split at the line terminators recognised by a
JavaScript multiline regex anchor (newline and carriage return). -/
def jsLines (s : String) : List String :=
  ((splitOnChar '\n' s.data).flatMap (splitOnChar '\r')).map (fun cs => ⟨cs⟩)

/-- Case-insensitive keyword test used by the answer heuristics:
`answer.toLowerCase().includes(keyword)` with a lowercase keyword. -/
def containsLower (s pat : String) : Bool := jsIncludes (jsToLower s) pat

/-! ## Data model

DocumentRecord embeds the mongoose `DocumentSchema` of
backend/src/models/Document.ts: `fileName`, `originalType`, `uploadedAt`,
`processed` (default false), optional `chromaDocumentId`, `workspaceId`,
plus the store-assigned `_id`. -/

structure DocumentRecord where
  id : String
  fileName : String
  originalType : String
  uploadedAt : Nat := 0
  processed : Bool
  chromaDocumentId : Option String
  workspaceId : String
deriving Repr, DecidableEq

/-- One retrieved passage, as parsed from the retrieval worker output:
an object with `text` and `source` fields. -/
structure Passage where
  text : String
  source : String
deriving Repr, DecidableEq

/-- The JSON body of a successful `/api/universal-qa` response. -/
structure QueryResult where
  answer : String
  citations : List String
  chartData : Option String
  nextSteps : List String
deriving Repr, DecidableEq

/-- An error response: HTTP status plus message. -/
structure ApiError where
  status : Nat
  message : String
deriving Repr, DecidableEq

/-! ## Embedding worker invocation (server.ts, runPythonScript and the
universal-upload handler) -/

/-- Observable outcome of one spawned `python` process: its exit code and the
captured stdout and stderr streams. -/
structure ProcOutcome where
  exitCode : Int
  stdout : String
  stderr : String
deriving Repr, DecidableEq

/-- Result of the `runPythonScript` promise: resolved with trimmed stdout, or
rejected with an error message. -/
inductive PyResult where
  | resolved (value : String)
  | rejected (message : String)
deriving Repr, DecidableEq

/-- server.ts lines 91-125: resolve with `stdout.trim()` on exit code 0,
otherwise reject with the exit code and trimmed stderr. -/
def runPythonScript (p : ProcOutcome) : PyResult :=
  if p.exitCode = 0 then .resolved (jsTrim p.stdout)
  else
    .rejected ("Python script exited with code " ++ toString p.exitCode ++
      ". Stderr: " ++ jsTrim p.stderr)

/-- The capture of the regex `SUCCESS:(.+)$` restricted to one line: the
remainder of the line after its first occurrence of `SUCCESS:`, provided that
remainder is non-empty. -/
def lineSuccessCapture (line : String) : Option String :=
  match restAfter "SUCCESS:".data line.data with
  | some rest => if rest.isEmpty then none else some ⟨rest⟩
  | none => none

/-- server.ts line 220, `pythonOutput.match(/SUCCESS:(.+)$/m)`: the leftmost
match, i.e. the capture of the first line that contains `SUCCESS:` followed by
at least one character. -/
def successMatch (s : String) : Option String :=
  (jsLines s).findSome? lineSuccessCapture

/-- Outcome of one embedding invocation as the upload handler classifies it. -/
inductive EmbedResult where
  | Success (handle : String)
  | Failure (reason : String)
deriving Repr, DecidableEq

/-- server.ts lines 217-236: run the python script; a rejected promise becomes
a failure with the rejection message; on resolution, extract the handle with
`match(/SUCCESS:(.+)$/m)` and trim it, else fail with the raw output. -/
def embedDocument (p : ProcOutcome) : EmbedResult :=
  match runPythonScript p with
  | .rejected msg => .Failure msg
  | .resolved output =>
    match successMatch output with
    | some cap => .Success (jsTrim cap)
    | none => .Failure ("Python processing failed: " ++ output)

/-! ## Upload handler (server.ts lines 179-249) -/

/-- server.ts lines 196-202: the document record as first saved, with
`processed: false` and no `chromaDocumentId`. -/
def mkPendingDocument (id w fileName mimeType : String) : DocumentRecord :=
  { id := id, fileName := fileName, originalType := mimeType,
    processed := false, chromaDocumentId := none, workspaceId := w }

/-- The successive saved states of the document record during one upload:
the pending record from the first `save()`, then, only when the embedding
succeeded, the record of the second `save()` with `processed := true` and the
handle set together (server.ts lines 224-226). -/
def uploadRecordStates (id w fileName mimeType : String) (p : ProcOutcome) :
    List DocumentRecord :=
  let d0 := mkPendingDocument id w fileName mimeType
  match embedDocument p with
  | .Success h => [d0, { d0 with processed := true, chromaDocumentId := some h }]
  | .Failure _ => [d0]

/-- The JSON body the upload handler sends: the 200 success body with
`documentId` and `chromaDocumentId`, or the 500 error body with only a
`message` and an `error` field. -/
inductive UploadResponse where
  | ok (message documentId chromaDocumentId : String)
  | err (status : Nat) (message error : String)
deriving Repr, DecidableEq

/-- server.ts lines 194-247, the universal-upload handler after validation:
save a pending record, invoke the embedding script, and either flip the saved
record to processed with the handle and answer 200, or leave it pending and
answer 500 with the error message. The store is the list of saved records. -/
def universalUpload (store : List DocumentRecord)
    (newId w fileName mimeType : String) (p : ProcOutcome) :
    List DocumentRecord × UploadResponse :=
  let d0 := mkPendingDocument newId w fileName mimeType
  let store1 := store ++ [d0]
  match embedDocument p with
  | .Success h =>
    let d1 : DocumentRecord := { d0 with processed := true, chromaDocumentId := some h }
    (store1.map (fun d => if d.id == newId then d1 else d),
     .ok "File uploaded and processed successfully!" newId h)
  | .Failure reason =>
    (store1, .err 500 "Error processing file" reason)

/-! ## Workspace-scoped reads -/

/-- routes/workspace.ts lines 73-88: `DocumentModel.find({ workspaceId })`. -/
def listByWorkspace (store : List DocumentRecord) (w : String) :
    List DocumentRecord :=
  store.filter (fun d => d.workspaceId == w)

/-- server.ts lines 267-288: the record set the universal-qa handler resolves.
With a non-empty explicit id list: records whose id is in the list, in the
workspace, and processed. Otherwise: all processed records in the workspace. -/
def resolveDocs (store : List DocumentRecord) (w : String)
    (documentIds : Option (List String)) : List DocumentRecord :=
  match documentIds with
  | some ids =>
    if 0 < ids.length then
      store.filter (fun d => ids.contains d.id && d.workspaceId == w && d.processed)
    else
      store.filter (fun d => d.workspaceId == w && d.processed)
  | none => store.filter (fun d => d.workspaceId == w && d.processed)

/-- server.ts lines 273-275 and 289-291:
`docs.map(d => d.chromaDocumentId!).filter(Boolean)` — collect the handles,
dropping absent ones and the falsy empty string. -/
def handlesOf (docs : List DocumentRecord) : List String :=
  (docs.filterMap (fun d => d.chromaDocumentId)).filter (fun s => !s.isEmpty)

/-- server.ts line 267: the JavaScript guard `documentIds && documentIds.length > 0`
(an absent value is falsy; a present array is truthy and tested for length). -/
def explicitIdsGiven (documentIds : Option (List String)) : Bool :=
  match documentIds with
  | some ids => !ids.isEmpty
  | none => false

/-- Outcome of candidate resolution: the handle list, or an error response. -/
inductive ResolveResult where
  | ok (handles : List String)
  | error (e : ApiError)
deriving Repr, DecidableEq

/-- server.ts lines 264-300: resolve the candidate handle set, or answer 400
with the branch-specific message when the collected handle list is empty. -/
def resolveHandles (store : List DocumentRecord) (w : String)
    (documentIds : Option (List String)) : ResolveResult :=
  let hs := handlesOf (resolveDocs store w documentIds)
  if hs.isEmpty then
    if explicitIdsGiven documentIds then
      .error ⟨400, "No processed documents found for the provided IDs."⟩
    else
      .error ⟨400, "No documents have been processed yet. Please upload a file first."⟩
  else .ok hs

/-! ## Answer post-processing and the universal-qa result
(server.ts lines 315-406) -/

/-- server.ts lines 368-371 and 385-391: the hint chosen once the chart
condition holds — generic, then overridden by bar, line and finally pie. -/
def chartPick (a : String) : String :=
  let c0 := "A chart showing data from the context would be beneficial."
  let c1 := if containsLower a "bar chart" then "Bar chart showing comparison." else c0
  let c2 := if containsLower a "line chart" then "Line chart showing trends over time." else c1
  if containsLower a "pie chart" then "Pie chart showing proportions." else c2

/-- One of the two identical chart-hint blocks (server.ts lines 367-372 and
381-392): overwrite the current hint when the answer mentions a chart or
visualisation, otherwise leave it unchanged. -/
def chartStep (a : String) (cur : Option String) : Option String :=
  if containsLower a "chart" || containsLower a "visualize" then some (chartPick a)
  else cur

/-- server.ts lines 394-398: the canned next-step lists. -/
def nextStepsOf (a : String) : List String :=
  if containsLower a "suggested next steps" then
    ["Review the detailed report.", "Discuss findings with the team."]
  else if containsLower a "further analysis" then
    ["Perform further analysis on identified areas."]
  else []

/-- server.ts lines 328-336: the grounded prompt built from the concatenated
passage texts and the query. -/
def llmPrompt (context query : String) : String :=
  "You are an intelligent assistant. Answer the following question based ONLY on the provided context. If the answer cannot be found in the context, state that you don't have enough information.\nIf the question asks for numerical comparison or data visualization, suggest a chart type (e.g., \"bar chart\", \"line chart\", \"pie chart\") and briefly describe what it would show.\n\nContext:\n" ++
    context ++ "\n\nQuestion: \"" ++ query ++ "\"\n\nAnswer:"

/-- server.ts lines 315-406, the universal-qa handler from the retrieved
passages on: the fixed no-information result on zero passages (the LLM is
never consulted there), otherwise the LLM answer post-processed by the two
chart-hint blocks, positional citations and the next-step heuristic. The LLM
is a function from the assembled prompt to the raw answer text. -/
def universalQA (query : String) (passages : List Passage)
    (llm : String → String) : QueryResult :=
  if passages.length = 0 then
    { answer := "I couldn't find relevant information in the uploaded documents for your query. Please try rephrasing or upload more relevant files.",
      citations := [], nextSteps := [], chartData := none }
  else
    let context := String.intercalate "\n\n" (passages.map (fun c => c.text))
    let aiAnswer := llm (llmPrompt context query)
    let chart1 := chartStep aiAnswer none
    let citations := passages.map (fun c => c.source)
    let chart2 := chartStep aiAnswer chart1
    { answer := aiAnswer, citations := citations, chartData := chart2,
      nextSteps := nextStepsOf aiAnswer }

/-- The same handler with the duplicated chart-hint block removed: the hint is
computed exactly once. Compared against universalQA for the equivalence
claim. -/
def universalQASingle (query : String) (passages : List Passage)
    (llm : String → String) : QueryResult :=
  if passages.length = 0 then
    { answer := "I couldn't find relevant information in the uploaded documents for your query. Please try rephrasing or upload more relevant files.",
      citations := [], nextSteps := [], chartData := none }
  else
    let context := String.intercalate "\n\n" (passages.map (fun c => c.text))
    let aiAnswer := llm (llmPrompt context query)
    { answer := aiAnswer, citations := passages.map (fun c => c.source),
      chartData := chartStep aiAnswer none, nextSteps := nextStepsOf aiAnswer }

/-- The extraction the specification describes for the worker protocol: the
capture of the LAST stdout line matching `SUCCESS:<handle>`. Written from the
words of the specification, to be compared with successMatch, which the code
implements. -/
def lastSuccessMatch (s : String) : Option String :=
  ((jsLines s).reverse).findSome? lineSuccessCapture

/-! ## Helper lemmas on the string primitives -/

/-- A successful restAfter yields a decomposition of the haystack. -/
theorem restAfter_decomp {pat : List Char} :
    ∀ {cs r : List Char}, restAfter pat cs = some r → ∃ pre, cs = pre ++ (pat ++ r) := by
  intro cs
  induction cs with
  | nil =>
    intro r h
    unfold restAfter at h
    split at h
    · next hp =>
      have hpat : pat = [] := by
        cases pat with
        | nil => rfl
        | cons a as => simp [List.isPrefixOf] at hp
      have hr : [] = r := Option.some.inj h
      exact ⟨[], by simp [hpat, ← hr]⟩
    · simp at h
  | cons x xs ih =>
    intro r h
    unfold restAfter at h
    split at h
    · next hp =>
      obtain ⟨t, ht⟩ := List.isPrefixOf_iff_prefix.mp hp
      have hr : List.drop pat.length (x :: xs) = r := Option.some.inj h
      refine ⟨[], ?_⟩
      have hdrop : List.drop pat.length (x :: xs) = t := by
        rw [← ht]
        exact List.drop_left pat t
      rw [← hr, hdrop]
      simp [← ht]
    · obtain ⟨pre, hpre⟩ := ih h
      exact ⟨x :: pre, by rw [hpre]; rfl⟩

/-- A haystack of the shape pre ++ pat ++ suf contains pat. -/
theorem hasSub_append (pat pre suf : List Char) :
    hasSub pat (pre ++ (pat ++ suf)) = true := by
  induction pre with
  | nil =>
    simp only [List.nil_append]
    unfold hasSub
    cases hps : pat ++ suf with
    | nil =>
      have hpat : pat = [] := by
        cases pat with
        | nil => rfl
        | cons a as => simp at hps
      rw [hpat]
      rfl
    | cons y ys =>
      unfold restAfter
      have hp : List.isPrefixOf pat (y :: ys) = true :=
        List.isPrefixOf_iff_prefix.mpr ⟨suf, hps⟩
      rw [if_pos hp]
      rfl
  | cons x pre ih =>
    show (restAfter pat (x :: (pre ++ (pat ++ suf)))).isSome = true
    unfold restAfter
    split
    · rfl
    · exact ih

/-- Substring containment is transitive. -/
theorem hasSub_trans {inner outer cs : List Char}
    (h1 : hasSub inner outer = true) (h2 : hasSub outer cs = true) :
    hasSub inner cs = true := by
  obtain ⟨r1, hr1⟩ := Option.isSome_iff_exists.mp h1
  obtain ⟨r2, hr2⟩ := Option.isSome_iff_exists.mp h2
  obtain ⟨pre1, hpre1⟩ := restAfter_decomp hr1
  obtain ⟨pre2, hpre2⟩ := restAfter_decomp hr2
  have : cs = (pre2 ++ pre1) ++ (inner ++ (r1 ++ r2)) := by
    rw [hpre2, hpre1]; simp [List.append_assoc]
  rw [this]
  exact hasSub_append inner (pre2 ++ pre1) (r1 ++ r2)

/-- Keyword monotonicity: a keyword that occurs inside another keyword occurs
in every answer containing the larger one. -/
theorem containsLower_mono {a p1 p2 : String}
    (hsub : hasSub p1.data p2.data = true) (h : containsLower a p2 = true) :
    containsLower a p1 = true := by
  unfold containsLower jsIncludes at h ⊢
  exact hasSub_trans hsub h

/-! ## Claim theorems -/

/-- Claim C1: every record state the upload operation produces satisfies the
invariant that the vector handle (chromaDocumentId) is present if and only if
processed is true: the record is created pending with no handle, and a
successful embedding sets processed and the handle together in the single
second save, so no observable state has one without the other. -/
theorem upload_handle_iff_processed (id w f m : String) (p : ProcOutcome) :
    (uploadRecordStates id w f m p).head? = some (mkPendingDocument id w f m) ∧
    ∀ d ∈ uploadRecordStates id w f m p,
      d.chromaDocumentId.isSome = d.processed := by
  constructor
  · unfold uploadRecordStates
    cases embedDocument p <;> rfl
  · intro d hd
    unfold uploadRecordStates at hd
    cases hq : embedDocument p <;> rw [hq] at hd <;> simp at hd
    · rcases hd with rfl | rfl <;> rfl
    · subst hd; rfl

/-- Witness for C1 at a concrete successful upload. -/
theorem upload_handle_iff_processed_witness :
    ({ id := "doc1", fileName := "report.pdf", originalType := "application/pdf",
       processed := true, chromaDocumentId := some "vec123",
       workspaceId := "w1" } : DocumentRecord) ∈
      uploadRecordStates "doc1" "w1" "report.pdf" "application/pdf"
        ⟨0, "SUCCESS:vec123", ""⟩ ∧
    (Option.some "vec123").isSome = true :=
  ⟨by decide,
   (upload_handle_iff_processed "doc1" "w1" "report.pdf" "application/pdf"
      ⟨0, "SUCCESS:vec123", ""⟩).2
     { id := "doc1", fileName := "report.pdf", originalType := "application/pdf",
       processed := true, chromaDocumentId := some "vec123", workspaceId := "w1" }
     (by decide)⟩

/-- Claim C5: with candidates but zero retrieved passages, the handler returns
the fixed non-error result with the canned answer, empty citations, empty next
steps and no chart hint, independent of the query text and of the LLM, which
is never consulted. -/
theorem qa_zero_passages_fixed (q : String) (llm : String → String) :
    universalQA q [] llm =
      { answer := "I couldn't find relevant information in the uploaded documents for your query. Please try rephrasing or upload more relevant files.",
        citations := [], nextSteps := [], chartData := none } := by
  rfl

/-- Claim C6: for a non-empty passage list the citations are exactly the
source field of each retrieved passage, positionally and without
deduplication. -/
theorem qa_citations_positional (q : String) (ps : List Passage)
    (llm : String → String) (h : ps ≠ []) :
    (universalQA q ps llm).citations = ps.map (fun c => c.source) ∧
    (universalQA q ps llm).citations.length = ps.length ∧
    ∀ i : Nat, (universalQA q ps llm).citations[i]? =
      Option.map (fun c => c.source) ps[i]? := by
  have h0 : ¬ ps.length = 0 := by simpa [List.length_eq_zero] using h
  have hc : (universalQA q ps llm).citations = ps.map (fun c => c.source) := by
    unfold universalQA
    rw [if_neg h0]
  refine ⟨hc, ?_, ?_⟩
  · rw [hc]; simp
  · intro i; rw [hc]; simp [List.getElem?_map]

/-- Witness for C6 at the passage pair from the specification example. -/
theorem qa_citations_positional_witness :
    (([⟨"a", "S1"⟩, ⟨"b", "S2"⟩] : List Passage) ≠ []) ∧
    ((universalQA "q" [⟨"a", "S1"⟩, ⟨"b", "S2"⟩] (fun _ => "x")).citations =
        ([⟨"a", "S1"⟩, ⟨"b", "S2"⟩] : List Passage).map (fun c => c.source) ∧
      (universalQA "q" [⟨"a", "S1"⟩, ⟨"b", "S2"⟩] (fun _ => "x")).citations.length =
        ([⟨"a", "S1"⟩, ⟨"b", "S2"⟩] : List Passage).length ∧
      ∀ i : Nat,
        (universalQA "q" [⟨"a", "S1"⟩, ⟨"b", "S2"⟩] (fun _ => "x")).citations[i]? =
          Option.map (fun c => c.source)
            (([⟨"a", "S1"⟩, ⟨"b", "S2"⟩] : List Passage))[i]?) :=
  ⟨by decide, qa_citations_positional "q" [⟨"a", "S1"⟩, ⟨"b", "S2"⟩] (fun _ => "x")
    (by decide)⟩

/-- Claim C9: the duplicated chart-hint block recomputes exactly the value the
first block computed, so the handler equals the handler with the duplication
removed, for every input. -/
theorem qa_duplicated_heuristic_equiv (q : String) (ps : List Passage)
    (llm : String → String) :
    universalQA q ps llm = universalQASingle q ps llm := by
  have hstep : ∀ a : String, chartStep a (chartStep a none) = chartStep a none := by
    intro a
    unfold chartStep
    split <;> rfl
  by_cases hc : ps.length = 0
  · simp [universalQA, universalQASingle, hc]
  · simp [universalQA, universalQASingle, hc, hstep]

/-- Claim C10: an explicit document-id list that is present but empty resolves
exactly as an omitted list does, both at the record level and at the handle
level. -/
theorem qa_empty_ids_like_omitted (store : List DocumentRecord) (w : String) :
    resolveDocs store w (some []) = resolveDocs store w none ∧
    resolveHandles store w (some []) = resolveHandles store w none :=
  ⟨rfl, rfl⟩

/-- Claim C2, counterexample: on a failed embedding the 500 response carries
only the fixed message and the error text; the freshly created document id
appears in neither field, so the failure is not returned together with the
original document id. -/
theorem upload_failure_response_lacks_id :
    universalUpload [] "64b2f0c8a9d4e1f203040506" "w1" "report.pdf"
        "application/pdf" ⟨1, "", "embedding crashed"⟩ =
      ([mkPendingDocument "64b2f0c8a9d4e1f203040506" "w1" "report.pdf"
          "application/pdf"],
       .err 500 "Error processing file"
         "Python script exited with code 1. Stderr: embedding crashed") ∧
    hasSub "64b2f0c8a9d4e1f203040506".data "Error processing file".data = false ∧
    hasSub "64b2f0c8a9d4e1f203040506".data
      "Python script exited with code 1. Stderr: embedding crashed".data = false := by
  decide

/-- Claim C2 (amended): the pending record is persisted before the embedding
invocation; on embedding failure the persisted record remains with
processed = false and no handle (the upload is not lost), and the failure is
returned to the caller as a 500 response carrying the error message, though
without the original document id. -/
theorem upload_failure_preserves_pending (store : List DocumentRecord)
    (newId w f m : String) (p : ProcOutcome) (r : String)
    (h : embedDocument p = .Failure r) :
    (universalUpload store newId w f m p).1 =
      store ++ [mkPendingDocument newId w f m] ∧
    mkPendingDocument newId w f m ∈ (universalUpload store newId w f m p).1 ∧
    (mkPendingDocument newId w f m).processed = false ∧
    (mkPendingDocument newId w f m).chromaDocumentId = none ∧
    (universalUpload store newId w f m p).2 =
      .err 500 "Error processing file" r := by
  unfold universalUpload
  rw [h]
  refine ⟨rfl, ?_, rfl, rfl, rfl⟩
  simp

/-- Witness for C2 at a concrete failing embedding invocation. -/
theorem upload_failure_preserves_pending_witness :
    embedDocument ⟨1, "", "boom"⟩ =
      .Failure "Python script exited with code 1. Stderr: boom" ∧
    ((universalUpload [] "doc1" "w1" "f.pdf" "application/pdf"
          ⟨1, "", "boom"⟩).1 =
        [] ++ [mkPendingDocument "doc1" "w1" "f.pdf" "application/pdf"] ∧
      mkPendingDocument "doc1" "w1" "f.pdf" "application/pdf" ∈
        (universalUpload [] "doc1" "w1" "f.pdf" "application/pdf"
          ⟨1, "", "boom"⟩).1 ∧
      (mkPendingDocument "doc1" "w1" "f.pdf" "application/pdf").processed = false ∧
      (mkPendingDocument "doc1" "w1" "f.pdf" "application/pdf").chromaDocumentId =
        none ∧
      (universalUpload [] "doc1" "w1" "f.pdf" "application/pdf"
          ⟨1, "", "boom"⟩).2 =
        .err 500 "Error processing file"
          "Python script exited with code 1. Stderr: boom") :=
  ⟨by decide,
   upload_failure_preserves_pending [] "doc1" "w1" "f.pdf" "application/pdf"
     ⟨1, "", "boom"⟩ "Python script exited with code 1. Stderr: boom" (by decide)⟩

/-- A pattern occurs in any list that ends with it. -/
theorem hasSub_suffix (pat pre : List Char) : hasSub pat (pre ++ pat) = true := by
  have h := hasSub_append pat pre []
  simpa using h

/-- Claim C3, counterexample: with stdout holding two matching lines the code
extracts the handle from the FIRST matching line, not the last one; and on a
non-zero exit the failure reason carries only stderr, not the full worker
output, so a stdout-only diagnostic is absent from the reason. -/
theorem embed_worker_protocol_counterexample :
    embedDocument ⟨0, "SUCCESS:a\nSUCCESS:b", ""⟩ = .Success "a" ∧
    lastSuccessMatch (jsTrim "SUCCESS:a\nSUCCESS:b") = some "b" ∧
    ("a" : String) ≠ "b" ∧
    embedDocument ⟨1, "lost-stdout", "inner fail"⟩ =
      .Failure "Python script exited with code 1. Stderr: inner fail" ∧
    hasSub "lost-stdout".data
      "Python script exited with code 1. Stderr: inner fail".data = false := by
  decide

/-- Claim C3 (amended): a non-zero worker exit yields a Failure whose reason
captures the trimmed stderr (stdout is not included); a zero exit yields the
handle extracted, and trimmed, from the FIRST stdout line matching
SUCCESS:(.+), and a zero-exit output with no such line yields a Failure whose
reason contains the trimmed raw stdout. -/
theorem embed_worker_protocol (p : ProcOutcome) :
    (p.exitCode ≠ 0 →
      ∃ r, embedDocument p = .Failure r ∧
        hasSub (jsTrim p.stderr).data r.data = true) ∧
    (p.exitCode = 0 →
      (∀ cap, successMatch (jsTrim p.stdout) = some cap →
        embedDocument p = .Success (jsTrim cap)) ∧
      (successMatch (jsTrim p.stdout) = none →
        ∃ r, embedDocument p = .Failure r ∧
          hasSub (jsTrim p.stdout).data r.data = true)) := by
  constructor
  · intro hne
    have he : embedDocument p =
        .Failure ("Python script exited with code " ++ toString p.exitCode ++
          ". Stderr: " ++ jsTrim p.stderr) := by
      unfold embedDocument runPythonScript
      rw [if_neg hne]
    refine ⟨_, he, ?_⟩
    simp only [String.data_append, ← List.append_assoc]
    exact hasSub_suffix _ _
  · intro h0
    have hrun : runPythonScript p = .resolved (jsTrim p.stdout) := by
      unfold runPythonScript
      rw [if_pos h0]
    constructor
    · intro cap hcap
      unfold embedDocument
      rw [hrun]
      simp only [hcap]
    · intro hnone
      have he : embedDocument p =
          .Failure ("Python processing failed: " ++ jsTrim p.stdout) := by
        unfold embedDocument
        rw [hrun]
        simp only [hnone]
      refine ⟨_, he, ?_⟩
      simp only [String.data_append]
      exact hasSub_suffix _ _

/-- Witness for C3: a non-zero exit whose reason contains the trimmed stderr,
and a zero exit whose first matching line yields the trimmed handle. -/
theorem embed_worker_protocol_witness :
    ((2 : Int) ≠ 0 ∧
      ∃ r, embedDocument ⟨2, "ignored", " worker crashed "⟩ = .Failure r ∧
        hasSub (jsTrim " worker crashed ").data r.data = true) ∧
    ((0 : Int) = 0 ∧
      successMatch (jsTrim "SUCCESS: vec9") = some " vec9" ∧
      embedDocument ⟨0, "SUCCESS: vec9", ""⟩ = .Success (jsTrim " vec9")) := by
  constructor
  · exact ⟨by decide,
      (embed_worker_protocol ⟨2, "ignored", " worker crashed "⟩).1 (by decide)⟩
  · refine ⟨rfl, by decide, ?_⟩
    exact ((embed_worker_protocol ⟨0, "SUCCESS: vec9", ""⟩).2 rfl).1 " vec9" (by decide)

/-- Claim C4: an explicit id list matching no processed record in the
workspace, or an omitted list with no processed record in the workspace,
makes the query fail with the 400 no-processed-documents rejection for that
branch; and retrieval candidates are produced only as a non-empty handle
list, never as an empty successful set. -/
theorem qa_no_processed_documents (store : List DocumentRecord) (w : String)
    (documentIds : Option (List String)) :
    (∀ ids, documentIds = some ids → ids ≠ [] →
      (∀ d ∈ store, ¬(d.id ∈ ids ∧ d.workspaceId = w ∧ d.processed = true)) →
      resolveHandles store w documentIds =
        .error ⟨400, "No processed documents found for the provided IDs."⟩) ∧
    ((∀ d ∈ store, ¬(d.workspaceId = w ∧ d.processed = true)) →
      resolveHandles store w none =
        .error ⟨400, "No documents have been processed yet. Please upload a file first."⟩) ∧
    (∀ hs, resolveHandles store w documentIds = .ok hs → hs ≠ []) := by
  refine ⟨?_, ?_, ?_⟩
  · rintro ids rfl hne hnone
    have hdocs : resolveDocs store w (some ids) = [] := by
      have hstep : resolveDocs store w (some ids) =
          if 0 < ids.length then
            List.filter (fun d => ids.contains d.id && d.workspaceId == w && d.processed) store
          else List.filter (fun d => d.workspaceId == w && d.processed) store := rfl
      rw [hstep, if_pos (List.length_pos.mpr hne), List.filter_eq_nil_iff]
      intro d hd
      have hn := hnone d hd
      simp only [Bool.and_eq_true, beq_iff_eq]
      rintro ⟨⟨hc1, hc2⟩, hc3⟩
      exact hn ⟨by simpa using hc1, hc2, hc3⟩
    unfold resolveHandles
    rw [hdocs]
    simp [handlesOf, explicitIdsGiven, hne]
  · intro hnone
    have hdocs : resolveDocs store w none = [] := by
      have hstep : resolveDocs store w none =
          List.filter (fun d => d.workspaceId == w && d.processed) store := rfl
      rw [hstep, List.filter_eq_nil_iff]
      intro d hd
      have hn := hnone d hd
      simp only [Bool.and_eq_true, beq_iff_eq]
      rintro ⟨hc1, hc2⟩
      exact hn ⟨hc1, hc2⟩
    unfold resolveHandles
    rw [hdocs]
    simp [handlesOf, explicitIdsGiven]
  · intro hs h
    unfold resolveHandles at h
    by_cases hemp : (handlesOf (resolveDocs store w documentIds)).isEmpty = true
    · rw [if_pos hemp] at h
      split at h <;> exact absurd h (by simp)
    · rw [if_neg hemp] at h
      have hh : handlesOf (resolveDocs store w documentIds) = hs :=
        ResolveResult.ok.inj h
      rw [← hh]
      simpa using hemp

/-- Witness for C4: a workspace holding one unprocessed record rejects both an
explicit id list matching nothing and an omitted list. -/
theorem qa_no_processed_documents_witness :
    ((some [("zzz" : String)] = some ["zzz"]) ∧ (["zzz"] : List String) ≠ [] ∧
      (∀ d ∈ [({ id := "i2", fileName := "g", originalType := "t",
                 processed := false, chromaDocumentId := none,
                 workspaceId := "w1" } : DocumentRecord)],
        ¬(d.id ∈ ["zzz"] ∧ d.workspaceId = "w1" ∧ d.processed = true)) ∧
      resolveHandles
          [{ id := "i2", fileName := "g", originalType := "t",
             processed := false, chromaDocumentId := none, workspaceId := "w1" }]
          "w1" (some ["zzz"]) =
        .error ⟨400, "No processed documents found for the provided IDs."⟩) ∧
    ((∀ d ∈ [({ id := "i2", fileName := "g", originalType := "t",
                processed := false, chromaDocumentId := none,
                workspaceId := "w1" } : DocumentRecord)],
        ¬(d.workspaceId = "w1" ∧ d.processed = true)) ∧
      resolveHandles
          [{ id := "i2", fileName := "g", originalType := "t",
             processed := false, chromaDocumentId := none, workspaceId := "w1" }]
          "w1" none =
        .error ⟨400, "No documents have been processed yet. Please upload a file first."⟩) := by
  constructor
  · exact ⟨rfl, by decide, by decide,
      (qa_no_processed_documents
          [{ id := "i2", fileName := "g", originalType := "t",
             processed := false, chromaDocumentId := none, workspaceId := "w1" }]
          "w1" (some ["zzz"])).1 ["zzz"] rfl (by decide) (by decide)⟩
  · exact ⟨by decide,
      (qa_no_processed_documents
          [{ id := "i2", fileName := "g", originalType := "t",
             processed := false, chromaDocumentId := none, workspaceId := "w1" }]
          "w1" none).2.1 (by decide)⟩

/-- Claim C7: chart hint and next steps are pure functions of the LLM answer
text via case-insensitive substring matching: a pie-chart mention yields the
pie hint, an answer mentioning neither chart nor visualize yields no hint,
and the two next-step keywords yield their canned lists, with empty next
steps otherwise. -/
theorem qa_answer_heuristics (q : String) (ps : List Passage)
    (llm : String → String) (h : ps ≠ []) (a : String)
    (ha : a = llm (llmPrompt (String.intercalate "\n\n"
      (ps.map (fun c => c.text))) q)) :
    (containsLower a "pie chart" = true →
      (universalQA q ps llm).chartData = some "Pie chart showing proportions.") ∧
    (containsLower a "chart" = false → containsLower a "visualize" = false →
      (universalQA q ps llm).chartData = none) ∧
    (containsLower a "suggested next steps" = true →
      (universalQA q ps llm).nextSteps =
        ["Review the detailed report.", "Discuss findings with the team."]) ∧
    (containsLower a "suggested next steps" = false →
      containsLower a "further analysis" = true →
      (universalQA q ps llm).nextSteps =
        ["Perform further analysis on identified areas."]) ∧
    (containsLower a "suggested next steps" = false →
      containsLower a "further analysis" = false →
      (universalQA q ps llm).nextSteps = []) := by
  have h0 : ¬ ps.length = 0 := by simpa [List.length_eq_zero] using h
  have hres : universalQA q ps llm =
      { answer := a, citations := ps.map (fun c => c.source),
        chartData := chartStep a (chartStep a none),
        nextSteps := nextStepsOf a } := by
    unfold universalQA
    rw [if_neg h0, ha]
  refine ⟨?_, ?_, ?_, ?_, ?_⟩
  · intro hp
    have hchart : containsLower a "chart" = true :=
      containsLower_mono (by decide) hp
    rw [hres]
    simp [chartStep, chartPick, hchart, hp]
  · intro hc hv
    rw [hres]
    simp [chartStep, hc, hv]
  · intro hs
    rw [hres]
    simp [nextStepsOf, hs]
  · intro hs hf
    rw [hres]
    simp [nextStepsOf, hs, hf]
  · intro hs hf
    rw [hres]
    simp [nextStepsOf, hs, hf]

/-- Witness for C7 at a concrete pie-chart answer. -/
theorem qa_answer_heuristics_witness :
    (([⟨"t", "S"⟩] : List Passage) ≠ []) ∧
    containsLower "Use a PIE CHART" "pie chart" = true ∧
    (universalQA "q" [⟨"t", "S"⟩] (fun _ => "Use a PIE CHART")).chartData =
      some "Pie chart showing proportions." :=
  ⟨by decide, by decide,
    (qa_answer_heuristics "q" [⟨"t", "S"⟩] (fun _ => "Use a PIE CHART")
        (by decide) "Use a PIE CHART" rfl).1 (by decide)⟩

/-- Claim C8: every record a workspace-scoped listing or the query-time
resolution returns belongs to the requested workspace; a record living in
workspace A is never returned by either operation scoped to a distinct B. -/
theorem workspace_scoping (store : List DocumentRecord) (w A B : String)
    (ids : Option (List String)) :
    (∀ d ∈ listByWorkspace store w, d.workspaceId = w) ∧
    (∀ d ∈ resolveDocs store w ids, d.workspaceId = w) ∧
    (A ≠ B → ∀ d ∈ store, d.workspaceId = A →
      ¬ d ∈ listByWorkspace store B ∧ ¬ d ∈ resolveDocs store B ids) := by
  have h1 : ∀ w' : String, ∀ d ∈ listByWorkspace store w', d.workspaceId = w' := by
    intro w' d hd
    unfold listByWorkspace at hd
    rw [List.mem_filter] at hd
    exact beq_iff_eq.mp hd.2
  have h2 : ∀ w' : String, ∀ d ∈ resolveDocs store w' ids, d.workspaceId = w' := by
    intro w' d hd
    cases ids with
    | none =>
      have hstep : resolveDocs store w' none =
          List.filter (fun d => d.workspaceId == w' && d.processed) store := rfl
      rw [hstep, List.mem_filter] at hd
      have hp := hd.2
      simp only [Bool.and_eq_true, beq_iff_eq] at hp
      exact hp.1
    | some l =>
      have hstep : resolveDocs store w' (some l) =
          if 0 < l.length then
            List.filter (fun d => l.contains d.id && d.workspaceId == w' && d.processed) store
          else List.filter (fun d => d.workspaceId == w' && d.processed) store := rfl
      rw [hstep] at hd
      split at hd
      · rw [List.mem_filter] at hd
        have hp := hd.2
        simp only [Bool.and_eq_true, beq_iff_eq] at hp
        exact hp.1.2
      · rw [List.mem_filter] at hd
        have hp := hd.2
        simp only [Bool.and_eq_true, beq_iff_eq] at hp
        exact hp.1
  refine ⟨h1 w, h2 w, ?_⟩
  intro hAB d _ hA
  constructor
  · intro hmem
    exact hAB (hA.symm.trans (h1 B d hmem))
  · intro hmem
    exact hAB (hA.symm.trans (h2 B d hmem))

/-- Witness for C8: a processed record of workspace wA is absent from the
listing and the resolution scoped to wB. -/
theorem workspace_scoping_witness :
    ("wA" : String) ≠ "wB" ∧
    ¬ ({ id := "i1", fileName := "f", originalType := "t", processed := true,
         chromaDocumentId := some "h", workspaceId := "wA" } : DocumentRecord) ∈
      listByWorkspace
        [{ id := "i1", fileName := "f", originalType := "t", processed := true,
           chromaDocumentId := some "h", workspaceId := "wA" }] "wB" ∧
    ¬ ({ id := "i1", fileName := "f", originalType := "t", processed := true,
         chromaDocumentId := some "h", workspaceId := "wA" } : DocumentRecord) ∈
      resolveDocs
        [{ id := "i1", fileName := "f", originalType := "t", processed := true,
           chromaDocumentId := some "h", workspaceId := "wA" }] "wB" none := by
  refine ⟨by decide, ?_⟩
  have hw := (workspace_scoping
      [{ id := "i1", fileName := "f", originalType := "t", processed := true,
         chromaDocumentId := some "h", workspaceId := "wA" }]
      "wA" "wA" "wB" none).2.2 (by decide)
      { id := "i1", fileName := "f", originalType := "t", processed := true,
        chromaDocumentId := some "h", workspaceId := "wA" }
      (by decide) (by decide)
  exact hw
